import Mathlib

/-!
Shallow embedding of the order-lifecycle core of a tailoring-shop backend
(src/server.js): order creation with an optional uploaded artifact,
conditional completion, and the two read projections, together with the
startup sequence.  The relational store is modelled as a list of rows, the
artifact store as a list of stored filenames, and each HTTP handler as a
pure function that also emits an event trace recording the order of its
effects.
-/

namespace Tailor

/-- Lexicographic comparison of character lists by code point: the order the
store applies to its string-typed columns, and the order of ISO date strings
(which agrees with the order of the dates they denote). -/
def charsLe : List Char → List Char → Bool
  | [], _ => true
  | _ :: _, [] => false
  | a :: as, b :: bs =>
      a.toNat < b.toNat || (a.toNat = b.toNat && charsLe as bs)

/-- Lexicographic comparison of strings by code point. -/
def strLe (a b : String) : Bool := charsLe a.data b.data

/-- Order status enumeration; the persisted strings are
"Pending", "In Progress" and "Complete". -/
inductive Status where
  | Pending
  | InProgress
  | Complete
deriving DecidableEq, Repr

/-- A persisted row of the Orders table, the column list of the INSERT at
src/server.js lines 59-62.  Dates and timestamps are ISO strings, which the
store orders lexicographically (the same order as the underlying DATE type). -/
structure Order where
  billNumber : String
  billDate : String
  deliveryDate : String
  notes : String
  status : Status
  completionDate : Option String
  customerName : String
  totalAmount : ℚ
  imagePath : Option String
deriving DecidableEq, Repr

/-- JavaScript falsiness of an optional string form field: absent, or the
empty string (the test on src/server.js line 48 is a bang on each field). -/
def falsy : Option String → Bool
  | none => true
  | some s => s = ""

/-- Outcome of the repository INSERT as observed by the handler: a row count
(result.affectedRows), a raised duplicate-key error (err.code ER_DUP_ENTRY),
or some other raised error. -/
inductive InsertOutcome where
  | ok (affectedRows : Nat)
  | errDup
  | errOther
deriving DecidableEq, Repr

/-- A repository insert behaviour: given the current table and a row, the
resulting table and the outcome observed by the caller. -/
def InsBehavior : Type := List Order → Order → List Order × InsertOutcome

/-- Single-statement atomicity of the store: an insert that fails, or that
reports zero affected rows, leaves the table unchanged; an insert reporting
at least one affected row appended exactly the given row. -/
def Atomic (ins : InsBehavior) : Prop :=
  ∀ db o,
    ((ins db o).2 = InsertOutcome.ok 0 → (ins db o).1 = db) ∧
    (∀ n, (ins db o).2 = InsertOutcome.ok (n + 1) → (ins db o).1 = db ++ [o]) ∧
    ((ins db o).2 = InsertOutcome.errDup → (ins db o).1 = db) ∧
    ((ins db o).2 = InsertOutcome.errOther → (ins db o).1 = db)

/-- Does the table already hold a row with this business key?  The schema
enforces uniqueness of bill_number. -/
def dupKey (db : List Order) (bn : String) : Bool :=
  db.any (fun o => o.billNumber == bn)

/-- The behaviour of a plain INSERT against a unique key in MySQL: a
duplicate key raises ER_DUP_ENTRY and changes nothing, otherwise the row is
appended and one affected row is reported. -/
def mysqlInsert : InsBehavior := fun db o =>
  if dupKey db o.billNumber then (db, InsertOutcome.errDup)
  else (db ++ [o], InsertOutcome.ok 1)

/-- An insert behaviour that reports a duplicate key in band, as
affectedRows = 0 with nothing raised: the shape the handler tests for on
src/server.js line 72. -/
def quietDupInsert : InsBehavior := fun db o =>
  if dupKey db o.billNumber then (db, InsertOutcome.ok 0)
  else (db ++ [o], InsertOutcome.ok 1)

/-- fs.unlink of a stored artifact: the file with that name is removed from
the store. -/
def deleteArt (arts : List String) (f : String) : List String :=
  arts.filter (fun a => a ≠ f)

/-- The two durable stores: the Orders table and the uploads folder. -/
structure SysState where
  db : List Order
  arts : List String
deriving DecidableEq, Repr

/-- An order-creation request: the three form fields of req.body and the
optional uploaded file, identified by the filename multer assigns to it. -/
structure Req where
  billNumber : Option String
  deliveryDate : Option String
  notes : Option String
  file : Option String
deriving DecidableEq, Repr

/-- Events emitted while a creation request is processed, in the order the
corresponding effects happen in src/server.js. -/
inductive Event where
  | storeArtifact (name : String)
  | validationFailed
  | validationPassed
  | insertAttempt
  | deleteArtifact (name : String)
deriving DecidableEq, Repr

/-- Response of the creation endpoint. -/
inductive CreateRes where
  | created (billNumber : String)
  | badRequest
  | conflict
  | serverError
deriving DecidableEq, Repr

/-- HTTP status code of each creation response (201, 400, 409, 500). -/
def CreateRes.code : CreateRes → Nat
  | CreateRes.created _ => 201
  | CreateRes.badRequest => 400
  | CreateRes.conflict => 409
  | CreateRes.serverError => 500

/-- The multer middleware stage (src/server.js lines 13-25 and 42): when the
request carries a file it is written to the uploads folder before the route
handler body runs at all. -/
def multerStage (r : Req) (s : SysState) : SysState × List Event :=
  match r.file with
  | none => (s, [])
  | some f => ({ s with arts := s.arts ++ [f] }, [Event.storeArtifact f])

/-- The row assembled by the creation handler (src/server.js lines 44-46 and
59-70): status Pending, bill_date the current server date, notes defaulted
to the empty string, fixed customer_name and total_amount, image_path the
multer filename when a file was uploaded. -/
def mkOrder (now : String) (r : Req) : Order :=
  { billNumber := r.billNumber.getD ""
  , billDate := now
  , deliveryDate := r.deliveryDate.getD ""
  , notes := r.notes.getD ""
  , status := Status.Pending
  , completionDate := none
  , customerName := "N/A"
  , totalAmount := 0
  , imagePath := r.file }

/-- The POST /api/orders handler body (src/server.js lines 44-93), run after
multer: validate the two required fields (deleting the uploaded file and
answering 400 on failure), insert the row, answer 409 on affectedRows = 0,
201 on success; in the catch block delete the uploaded file and answer 409
on ER_DUP_ENTRY or 500 otherwise. -/
def handlerStage (ins : InsBehavior) (now : String) (r : Req) (s : SysState) :
    SysState × CreateRes × List Event :=
  if falsy r.billNumber || falsy r.deliveryDate then
    match r.file with
    | some f =>
        ({ s with arts := deleteArt s.arts f }, CreateRes.badRequest,
          [Event.validationFailed, Event.deleteArtifact f])
    | none => (s, CreateRes.badRequest, [Event.validationFailed])
  else
    match (ins s.db (mkOrder now r)).2, r.file with
    | InsertOutcome.ok 0, _ =>
        ({ s with db := (ins s.db (mkOrder now r)).1 }, CreateRes.conflict,
          [Event.validationPassed, Event.insertAttempt])
    | InsertOutcome.ok _, _ =>
        ({ s with db := (ins s.db (mkOrder now r)).1 },
          CreateRes.created (mkOrder now r).billNumber,
          [Event.validationPassed, Event.insertAttempt])
    | InsertOutcome.errDup, some f =>
        ({ db := (ins s.db (mkOrder now r)).1, arts := deleteArt s.arts f },
          CreateRes.conflict,
          [Event.validationPassed, Event.insertAttempt, Event.deleteArtifact f])
    | InsertOutcome.errDup, none =>
        ({ s with db := (ins s.db (mkOrder now r)).1 }, CreateRes.conflict,
          [Event.validationPassed, Event.insertAttempt])
    | InsertOutcome.errOther, some f =>
        ({ db := (ins s.db (mkOrder now r)).1, arts := deleteArt s.arts f },
          CreateRes.serverError,
          [Event.validationPassed, Event.insertAttempt, Event.deleteArtifact f])
    | InsertOutcome.errOther, none =>
        ({ s with db := (ins s.db (mkOrder now r)).1 }, CreateRes.serverError,
          [Event.validationPassed, Event.insertAttempt])

/-- Full processing of one creation request: multer file intake, then the
route handler body. -/
def createOrder (ins : InsBehavior) (now : String) (r : Req) (s : SysState) :
    SysState × CreateRes × List Event :=
  let m := multerStage r s
  let h := handlerStage ins now r m.1
  (h.1, h.2.1, m.2 ++ h.2.2)

/-- Response of the completion endpoint: 200 with a message, or 404. -/
inductive CompleteRes where
  | ok
  | notFound
deriving DecidableEq, Repr

/-- The WHERE clause of the conditional UPDATE (src/server.js line 106):
matching business key and status not already Complete. -/
def eligible (bn : String) (o : Order) : Bool :=
  o.billNumber == bn && o.status != Status.Complete

/-- The SET clause applied to each row matched by the UPDATE
(src/server.js line 105). -/
def completeRow (now : String) (bn : String) (o : Order) : Order :=
  if eligible bn o then
    { o with status := Status.Complete, completionDate := some now }
  else o

/-- The conditional UPDATE (src/server.js lines 103-108): every eligible row
gets status Complete and completion_date now; affectedRows counts them. -/
def completeIfEligible (now : String) (bn : String) (db : List Order) :
    List Order × Nat :=
  (db.map (completeRow now bn), db.countP (eligible bn))

/-- The PUT /api/orders/:billNumber/complete handler
(src/server.js lines 99-119): 404 when the UPDATE touched no row. -/
def completeOrder (now : String) (bn : String) (db : List Order) :
    List Order × CompleteRes :=
  let r := completeIfEligible now bn db
  if r.2 = 0 then (r.1, CompleteRes.notFound) else (r.1, CompleteRes.ok)

/-- Projection returned by the pending listing (src/server.js line 130). -/
structure PendingRow where
  billNumber : String
  deliveryDate : String
  notes : String
  status : Status
  imagePath : Option String
deriving DecidableEq, Repr

/-- The SELECT list of the pending query. -/
def projPending (o : Order) : PendingRow :=
  { billNumber := o.billNumber
  , deliveryDate := o.deliveryDate
  , notes := o.notes
  , status := o.status
  , imagePath := o.imagePath }

/-- The WHERE clause of the pending query (src/server.js lines 132-133):
status IN (Pending, In Progress) and delivery_date BETWEEN the two bounds,
inclusive. -/
def pendingPred (s e : String) (o : Order) : Bool :=
  (o.status == Status.Pending || o.status == Status.InProgress)
    && (strLe s o.deliveryDate && strLe o.deliveryDate e)

/-- ORDER BY delivery_date ASC. -/
def byDelivery (a b : Order) : Bool := strLe a.deliveryDate b.deliveryDate

/-- The query behind GET /api/orders/pending (src/server.js lines 129-137). -/
def listPendingQ (s e : String) (db : List Order) : List PendingRow :=
  ((db.filter (pendingPred s e)).mergeSort byDelivery).map projPending

/-- Defaulting of the two query parameters (src/server.js lines 125-126):
a JavaScript or-expression, so an absent or empty parameter falls back to
the constant. -/
def orDefault (x : Option String) (d : String) : String :=
  match x with
  | none => d
  | some s => if s = "" then d else s

/-- GET /api/orders/pending (src/server.js lines 124-143). -/
def listPending (s e : Option String) (db : List Order) : List PendingRow :=
  listPendingQ (orDefault s "2000-01-01") (orDefault e "2100-01-01") db

/-- Projection returned by the full listing (src/server.js line 151). -/
structure AllRow where
  billNumber : String
  deliveryDate : String
  notes : String
  status : Status
  completionDate : Option String
  imagePath : Option String
deriving DecidableEq, Repr

/-- The SELECT list of the full-history query. -/
def projAll (o : Order) : AllRow :=
  { billNumber := o.billNumber
  , deliveryDate := o.deliveryDate
  , notes := o.notes
  , status := o.status
  , completionDate := o.completionDate
  , imagePath := o.imagePath }

/-- ORDER BY bill_number DESC. -/
def byBillDesc (a b : Order) : Bool := strLe b.billNumber a.billNumber

/-- GET /api/orders (src/server.js lines 148-162): every row, ordered by
business key descending. -/
def listAll (db : List Order) : List AllRow :=
  (db.mergeSort byBillDesc).map projAll

/-- Events of the process startup sequence. -/
inductive StartEvent where
  | getConnection
  | connectionReleased
  | listen
  | connectionFailed
deriving DecidableEq, Repr

/-- The startup sequence (src/server.js lines 166-176): one
pool.getConnection; on success the connection is released and the listener
starts; on failure the error is logged and the listener never starts. -/
def startupTrace (connOk : Bool) : List StartEvent :=
  StartEvent.getConnection ::
    (if connOk then [StartEvent.connectionReleased, StartEvent.listen]
     else [StartEvent.connectionFailed])

/-- A concrete valid creation request with no file, used in concrete
evaluations of the model. -/
def reqB100 : Req :=
  { billNumber := some "B100", deliveryDate := some "2025-01-10",
    notes := none, file := none }

/-- A concrete valid creation request carrying an uploaded file. -/
def reqB100file : Req :=
  { billNumber := some "B100", deliveryDate := some "2025-01-11",
    notes := some "hem", file := some "B100-style-99.jpg" }

/-- A concrete invalid creation request: bill number absent, file present. -/
def reqNoBill : Req :=
  { billNumber := none, deliveryDate := some "2025-01-10",
    notes := none, file := some "temp-style-7.jpg" }

/-- The empty system state. -/
def state0 : SysState := { db := [], arts := [] }

/-- A concrete stored Pending order used in concrete evaluations. -/
def orderB1 : Order :=
  { billNumber := "B1", billDate := "2025-01-01", deliveryDate := "2025-01-10",
    notes := "", status := Status.Pending, completionDate := none,
    customerName := "N/A", totalAmount := 0, imagePath := none }

/-! ## Helper lemmas -/

theorem charsLe_total : ∀ x y : List Char, charsLe x y || charsLe y x := by
  intro x
  induction x with
  | nil => intro y; simp [charsLe]
  | cons a as ih =>
      intro y
      cases y with
      | nil => simp [charsLe]
      | cons b bs =>
          simp only [charsLe, Bool.or_eq_true, decide_eq_true_eq, Bool.and_eq_true]
          rcases Nat.lt_trichotomy a.toNat b.toNat with h | h | h
          · left; left; exact h
          · rcases Bool.or_eq_true _ _ |>.mp (ih bs) with h2 | h2
            · left; right; exact ⟨h, h2⟩
            · right; right; exact ⟨h.symm, h2⟩
          · right; left; exact h

theorem charsLe_trans : ∀ x y z : List Char,
    charsLe x y = true → charsLe y z = true → charsLe x z = true := by
  intro x
  induction x with
  | nil => intro y z _ _; simp [charsLe]
  | cons a as ih =>
      intro y z hxy hyz
      cases y with
      | nil => simp [charsLe] at hxy
      | cons b bs =>
          cases z with
          | nil => simp [charsLe] at hyz
          | cons c cs =>
              simp only [charsLe, Bool.or_eq_true, decide_eq_true_eq,
                Bool.and_eq_true] at hxy hyz ⊢
              rcases hxy with h1 | ⟨h1, h1r⟩
              · rcases hyz with h2 | ⟨h2, _⟩
                · left; omega
                · left; omega
              · rcases hyz with h2 | ⟨h2, h2r⟩
                · left; omega
                · right; exact ⟨by omega, ih bs cs h1r h2r⟩

theorem strLe_total (a b : String) : strLe a b || strLe b a :=
  charsLe_total a.data b.data

theorem strLe_trans (a b c : String) (h1 : strLe a b = true) (h2 : strLe b c = true) :
    strLe a c = true :=
  charsLe_trans a.data b.data c.data h1 h2

theorem mysqlInsert_atomic : Atomic mysqlInsert := by
  intro db o
  unfold mysqlInsert
  by_cases h : dupKey db o.billNumber
  · simp [h]
  · simp [h]

theorem quietDupInsert_atomic : Atomic quietDupInsert := by
  intro db o
  unfold quietDupInsert
  by_cases h : dupKey db o.billNumber
  · simp [h]
  · simp [h]

theorem eligible_iff (bn : String) (o : Order) :
    eligible bn o = true ↔ o.billNumber = bn ∧ o.status ≠ Status.Complete := by
  simp [eligible]

theorem completeRow_of_not_eligible (now bn : String) (o : Order)
    (h : eligible bn o = false) : completeRow now bn o = o := by
  simp [completeRow, h]

theorem multerStage_file (r : Req) (s : SysState) (f : String) (hf : r.file = some f) :
    multerStage r s = ({ s with arts := s.arts ++ [f] }, [Event.storeArtifact f]) := by
  unfold multerStage
  rw [hf]

theorem multerStage_nofile (r : Req) (s : SysState) (hf : r.file = none) :
    multerStage r s = (s, []) := by
  unfold multerStage
  rw [hf]

theorem multerStage_db (r : Req) (s : SysState) : (multerStage r s).1.db = s.db := by
  unfold multerStage
  cases r.file <;> simp

theorem createOrder_eq (ins : InsBehavior) (now : String) (r : Req) (s : SysState) :
    createOrder ins now r s =
      ((handlerStage ins now r (multerStage r s).1).1,
       (handlerStage ins now r (multerStage r s).1).2.1,
       (multerStage r s).2 ++ (handlerStage ins now r (multerStage r s).1).2.2) := rfl

theorem handlerStage_vfail (ins : InsBehavior) (now : String) (r : Req) (s : SysState)
    (hv : (falsy r.billNumber || falsy r.deliveryDate) = true) :
    handlerStage ins now r s =
      (match r.file with
       | some f =>
           ({ s with arts := deleteArt s.arts f }, CreateRes.badRequest,
             [Event.validationFailed, Event.deleteArtifact f])
       | none => (s, CreateRes.badRequest, [Event.validationFailed])) := by
  unfold handlerStage
  rw [if_pos hv]

theorem handlerStage_ok0 (ins : InsBehavior) (now : String) (r : Req) (s : SysState)
    (hv : (falsy r.billNumber || falsy r.deliveryDate) = false)
    (ho : (ins s.db (mkOrder now r)).2 = InsertOutcome.ok 0) :
    handlerStage ins now r s =
      ({ s with db := (ins s.db (mkOrder now r)).1 }, CreateRes.conflict,
        [Event.validationPassed, Event.insertAttempt]) := by
  unfold handlerStage
  rw [if_neg (by simp [hv]), ho]

theorem handlerStage_created (ins : InsBehavior) (now : String) (r : Req) (s : SysState)
    (n : Nat) (hv : (falsy r.billNumber || falsy r.deliveryDate) = false)
    (ho : (ins s.db (mkOrder now r)).2 = InsertOutcome.ok (n + 1)) :
    handlerStage ins now r s =
      ({ s with db := (ins s.db (mkOrder now r)).1 },
        CreateRes.created (mkOrder now r).billNumber,
        [Event.validationPassed, Event.insertAttempt]) := by
  unfold handlerStage
  rw [if_neg (by simp [hv]), ho]
  rfl

theorem handlerStage_errDup_file (ins : InsBehavior) (now : String) (r : Req)
    (s : SysState) (f : String)
    (hv : (falsy r.billNumber || falsy r.deliveryDate) = false)
    (ho : (ins s.db (mkOrder now r)).2 = InsertOutcome.errDup)
    (hf : r.file = some f) :
    handlerStage ins now r s =
      ({ db := (ins s.db (mkOrder now r)).1, arts := deleteArt s.arts f },
        CreateRes.conflict,
        [Event.validationPassed, Event.insertAttempt, Event.deleteArtifact f]) := by
  unfold handlerStage
  rw [if_neg (by simp [hv]), ho, hf]

theorem handlerStage_errDup_nofile (ins : InsBehavior) (now : String) (r : Req)
    (s : SysState)
    (hv : (falsy r.billNumber || falsy r.deliveryDate) = false)
    (ho : (ins s.db (mkOrder now r)).2 = InsertOutcome.errDup)
    (hf : r.file = none) :
    handlerStage ins now r s =
      ({ s with db := (ins s.db (mkOrder now r)).1 }, CreateRes.conflict,
        [Event.validationPassed, Event.insertAttempt]) := by
  unfold handlerStage
  rw [if_neg (by simp [hv]), ho, hf]

theorem handlerStage_errOther_file (ins : InsBehavior) (now : String) (r : Req)
    (s : SysState) (f : String)
    (hv : (falsy r.billNumber || falsy r.deliveryDate) = false)
    (ho : (ins s.db (mkOrder now r)).2 = InsertOutcome.errOther)
    (hf : r.file = some f) :
    handlerStage ins now r s =
      ({ db := (ins s.db (mkOrder now r)).1, arts := deleteArt s.arts f },
        CreateRes.serverError,
        [Event.validationPassed, Event.insertAttempt, Event.deleteArtifact f]) := by
  unfold handlerStage
  rw [if_neg (by simp [hv]), ho, hf]

theorem handlerStage_errOther_nofile (ins : InsBehavior) (now : String) (r : Req)
    (s : SysState)
    (hv : (falsy r.billNumber || falsy r.deliveryDate) = false)
    (ho : (ins s.db (mkOrder now r)).2 = InsertOutcome.errOther)
    (hf : r.file = none) :
    handlerStage ins now r s =
      ({ s with db := (ins s.db (mkOrder now r)).1 }, CreateRes.serverError,
        [Event.validationPassed, Event.insertAttempt]) := by
  unfold handlerStage
  rw [if_neg (by simp [hv]), ho, hf]

theorem deleteArt_not_mem (arts : List String) (f : String) : f ∉ deleteArt arts f := by
  simp [deleteArt]

theorem deleteArt_of_not_mem (arts : List String) (f : String) (h : f ∉ arts) :
    deleteArt arts f = arts := by
  unfold deleteArt
  apply List.filter_eq_self.mpr
  intro a ha
  simp only [ne_eq, decide_eq_true_eq]
  intro heq
  exact h (heq ▸ ha)

theorem deleteArt_append (arts : List String) (f : String) :
    deleteArt (arts ++ [f]) f = deleteArt arts f := by
  simp [deleteArt]

theorem mysqlInsert_dup (db : List Order) (o : Order) (h : dupKey db o.billNumber = true) :
    mysqlInsert db o = (db, InsertOutcome.errDup) := by
  simp [mysqlInsert, h]

theorem mysqlInsert_fresh (db : List Order) (o : Order) (h : dupKey db o.billNumber = false) :
    mysqlInsert db o = (db ++ [o], InsertOutcome.ok 1) := by
  simp [mysqlInsert, h]

theorem code_ge_badRequest : 400 ≤ CreateRes.code CreateRes.badRequest := by decide

theorem code_ge_conflict : 400 ≤ CreateRes.code CreateRes.conflict := by decide

theorem code_ge_serverError : 400 ≤ CreateRes.code CreateRes.serverError := by decide

theorem createOrder_db_cases (ins : InsBehavior) (hins : Atomic ins) (now : String)
    (r : Req) (s : SysState) :
    ((createOrder ins now r s).1.db = s.db ++ [mkOrder now r]
       ∧ (createOrder ins now r s).2.1 = CreateRes.created (mkOrder now r).billNumber)
    ∨ ((createOrder ins now r s).1.db = s.db
       ∧ (createOrder ins now r s).2.1 ≠ CreateRes.created (mkOrder now r).billNumber
       ∧ 400 ≤ (createOrder ins now r s).2.1.code) := by
  rw [createOrder_eq]
  have hdb1 : (multerStage r s).1.db = s.db := multerStage_db r s
  by_cases hv : (falsy r.billNumber || falsy r.deliveryDate) = true
  · right
    rw [handlerStage_vfail ins now r (multerStage r s).1 hv]
    cases hf : r.file <;>
      exact ⟨hdb1, fun h => CreateRes.noConfusion h, code_ge_badRequest⟩
  · have hv2 : (falsy r.billNumber || falsy r.deliveryDate) = false := by
      simpa using hv
    obtain ⟨h0, hS, hD, hO⟩ := hins (multerStage r s).1.db (mkOrder now r)
    rcases ho : (ins (multerStage r s).1.db (mkOrder now r)).2 with n | _ | _
    · cases n with
      | zero =>
          right
          rw [handlerStage_ok0 ins now r (multerStage r s).1 hv2 ho]
          exact ⟨by rw [h0 ho]; exact hdb1, fun h => CreateRes.noConfusion h,
            code_ge_conflict⟩
      | succ m =>
          left
          rw [handlerStage_created ins now r (multerStage r s).1 m hv2 ho]
          exact ⟨by rw [hS m ho, hdb1], rfl⟩
    · right
      cases hf : r.file with
      | none =>
          rw [handlerStage_errDup_nofile ins now r (multerStage r s).1 hv2 ho hf]
          exact ⟨by rw [hD ho]; exact hdb1, fun h => CreateRes.noConfusion h,
            code_ge_conflict⟩
      | some f =>
          rw [handlerStage_errDup_file ins now r (multerStage r s).1 f hv2 ho hf]
          exact ⟨by rw [hD ho]; exact hdb1, fun h => CreateRes.noConfusion h,
            code_ge_conflict⟩
    · right
      cases hf : r.file with
      | none =>
          rw [handlerStage_errOther_nofile ins now r (multerStage r s).1 hv2 ho hf]
          exact ⟨by rw [hO ho]; exact hdb1, fun h => CreateRes.noConfusion h,
            code_ge_serverError⟩
      | some f =>
          rw [handlerStage_errOther_file ins now r (multerStage r s).1 f hv2 ho hf]
          exact ⟨by rw [hO ho]; exact hdb1, fun h => CreateRes.noConfusion h,
            code_ge_serverError⟩

/-! ## Claims -/

/-- C2: completeOrder sets status to Complete and completionDate to the
server time exactly when a row with that business key exists whose stored
status is not already Complete; otherwise it changes nothing and answers
NotFoundOrAlreadyComplete; and a second completeOrder on the same key after
a successful one answers NotFoundOrAlreadyComplete. -/
theorem completeOrder_spec (now bn : String) (db : List Order) :
    ((completeOrder now bn db).2 = CompleteRes.ok ↔
      ∃ o ∈ db, o.billNumber = bn ∧ o.status ≠ Status.Complete)
    ∧ ((completeOrder now bn db).2 = CompleteRes.notFound →
        (completeOrder now bn db).1 = db)
    ∧ (∀ o ∈ db, eligible bn o = true →
        ({ o with status := Status.Complete, completionDate := some now } : Order)
          ∈ (completeOrder now bn db).1)
    ∧ (∀ now2, (completeOrder now bn db).2 = CompleteRes.ok →
        (completeOrder now2 bn (completeOrder now bn db).1).2 = CompleteRes.notFound) := by
  have hres : (completeOrder now bn db).2 =
      (if db.countP (eligible bn) = 0 then CompleteRes.notFound else CompleteRes.ok) := by
    by_cases h : db.countP (eligible bn) = 0 <;>
      simp [completeOrder, completeIfEligible, h]
  have hdb : (completeOrder now bn db).1 = db.map (completeRow now bn) := by
    by_cases h : db.countP (eligible bn) = 0 <;>
      simp [completeOrder, completeIfEligible, h]
  refine ⟨?_, ?_, ?_, ?_⟩
  · constructor
    · intro h
      rw [hres] at h
      by_cases h0 : db.countP (eligible bn) = 0
      · simp [h0] at h
      · obtain ⟨o, ho, he⟩ := List.countP_pos_iff.mp (Nat.pos_of_ne_zero h0)
        exact ⟨o, ho, (eligible_iff bn o).mp he⟩
    · rintro ⟨o, ho, h1, h2⟩
      rw [hres]
      have he : eligible bn o = true := (eligible_iff bn o).mpr ⟨h1, h2⟩
      have hpos : 0 < db.countP (eligible bn) := List.countP_pos_iff.mpr ⟨o, ho, he⟩
      simp [Nat.pos_iff_ne_zero.mp hpos]
  · intro h
    rw [hres] at h
    by_cases h0 : db.countP (eligible bn) = 0
    · rw [hdb]
      have hall := List.countP_eq_zero.mp h0
      have hid : ∀ o ∈ db, completeRow now bn o = o := by
        intro o ho
        have hf : eligible bn o = false := by simpa using hall o ho
        exact completeRow_of_not_eligible now bn o hf
      rw [List.map_congr_left hid]
      simp
    · simp [h0] at h
  · intro o ho he
    rw [hdb]
    have hrow : completeRow now bn o =
        { o with status := Status.Complete, completionDate := some now } := by
      simp [completeRow, he]
    exact List.mem_map.mpr ⟨o, ho, hrow⟩
  · intro now2 _
    rw [hdb]
    have hzero : (db.map (completeRow now bn)).countP (eligible bn) = 0 := by
      apply List.countP_eq_zero.mpr
      intro o2 ho2
      obtain ⟨o, ho, rfl⟩ := List.mem_map.mp ho2
      by_cases he : eligible bn o = true
      · have hp := (eligible_iff bn o).mp he
        simp [completeRow, eligible, hp.1, hp.2]
      · have hf : eligible bn o = false := by simpa using he
        rw [completeRow_of_not_eligible now bn o hf]
        simp [hf]
    simp [completeOrder, completeIfEligible, hzero]

/-- Witness for C2 at a concrete Pending order. -/
theorem completeOrder_spec_witness :
    (completeOrder "2025-02-01" "B1" [orderB1]).2 = CompleteRes.ok :=
  (completeOrder_spec "2025-02-01" "B1" [orderB1]).1.mpr
    ⟨orderB1, List.mem_singleton.mpr rfl, rfl, by decide⟩

/-- C4: a creation request whose billNumber or deliveryDate is missing or
empty fails with ValidationError 400, inserts no row, and any artifact
received with the request is deleted before the error returns, so no
artifact of that attempt remains in storage. -/
theorem createOrder_validation_spec (ins : InsBehavior) (now : String) (r : Req)
    (s : SysState) (hv : (falsy r.billNumber || falsy r.deliveryDate) = true) :
    (createOrder ins now r s).2.1 = CreateRes.badRequest
    ∧ (createOrder ins now r s).2.1.code = 400
    ∧ (createOrder ins now r s).1.db = s.db
    ∧ (∀ f, r.file = some f → f ∉ (createOrder ins now r s).1.arts)
    ∧ (∀ f, r.file = some f → f ∉ s.arts →
        (createOrder ins now r s).1.arts = s.arts)
    ∧ (∀ f, r.file = some f → (createOrder ins now r s).2.2 =
        [Event.storeArtifact f, Event.validationFailed, Event.deleteArtifact f])
    ∧ (r.file = none → (createOrder ins now r s).1.arts = s.arts) := by
  cases hf : r.file with
  | none =>
      rw [createOrder_eq, multerStage_nofile r s hf,
        handlerStage_vfail ins now r s hv, hf]
      exact ⟨rfl, rfl, rfl, fun f hff => Option.noConfusion hff,
        fun f hff => Option.noConfusion hff,
        fun f hff => Option.noConfusion hff, fun _ => rfl⟩
  | some f0 =>
      rw [createOrder_eq, multerStage_file r s f0 hf,
        handlerStage_vfail ins now r _ hv, hf]
      refine ⟨rfl, rfl, rfl, ?_, ?_, ?_, fun h => Option.noConfusion h⟩
      · intro f hff
        injection hff with h
        subst h
        exact deleteArt_not_mem _ _
      · intro f hff hnm
        injection hff with h
        subst h
        show deleteArt (s.arts ++ [f0]) f0 = s.arts
        rw [deleteArt_append]
        exact deleteArt_of_not_mem _ _ hnm
      · intro f hff
        injection hff with h
        subst h
        rfl

/-- Witness for C4 at a concrete invalid request carrying a file. -/
theorem createOrder_validation_witness :
    ((falsy reqNoBill.billNumber || falsy reqNoBill.deliveryDate) = true)
    ∧ (createOrder mysqlInsert "2025-01-01" reqNoBill state0).2.1 =
        CreateRes.badRequest :=
  ⟨by decide,
   (createOrder_validation_spec mysqlInsert "2025-01-01" reqNoBill state0 (by decide)).1⟩

/-- C6: every successfully created order is appended with status Pending,
billDate the server date at insert time, notes stored as the empty string
when omitted, customerName fixed to N/A, totalAmount fixed to 0, and
imagePath null when no image was attached. -/
theorem createOrder_defaults (ins : InsBehavior) (hins : Atomic ins) (now : String)
    (r : Req) (s : SysState) (bn : String)
    (hsucc : (createOrder ins now r s).2.1 = CreateRes.created bn) :
    (createOrder ins now r s).1.db = s.db ++ [mkOrder now r]
    ∧ (mkOrder now r).status = Status.Pending
    ∧ (mkOrder now r).billDate = now
    ∧ (r.notes = none → (mkOrder now r).notes = "")
    ∧ (mkOrder now r).customerName = "N/A"
    ∧ (mkOrder now r).totalAmount = 0
    ∧ (r.file = none → (mkOrder now r).imagePath = none) := by
  rcases createOrder_db_cases ins hins now r s with ⟨h1, _⟩ | ⟨_, _, hcode⟩
  · exact ⟨h1, rfl, rfl, fun h => by simp [mkOrder, h], rfl, rfl,
      fun h => by simp [mkOrder, h]⟩
  · rw [hsucc] at hcode
    simp [CreateRes.code] at hcode

/-- Witness for C6 at a concrete successful creation. -/
theorem createOrder_defaults_witness :
    ((createOrder mysqlInsert "2025-01-01" reqB100 state0).2.1 =
        CreateRes.created "B100")
    ∧ (createOrder mysqlInsert "2025-01-01" reqB100 state0).1.db =
        state0.db ++ [mkOrder "2025-01-01" reqB100] :=
  ⟨by decide,
   (createOrder_defaults mysqlInsert mysqlInsert_atomic "2025-01-01" reqB100
      state0 "B100" (by decide)).1⟩

/-- C9: whenever creation answers an error (status 400, 409 or 500), the
persisted rows are exactly what they were before the request. -/
theorem createOrder_error_frame (ins : InsBehavior) (hins : Atomic ins)
    (now : String) (r : Req) (s : SysState)
    (herr : 400 ≤ (createOrder ins now r s).2.1.code) :
    (createOrder ins now r s).1.db = s.db := by
  rcases createOrder_db_cases ins hins now r s with ⟨_, h2⟩ | ⟨h1, _, _⟩
  · rw [h2] at herr
    simp [CreateRes.code] at herr
  · exact h1

/-- Witness for C9 at a concrete failing request. -/
theorem createOrder_error_frame_witness :
    (400 ≤ (createOrder mysqlInsert "2025-01-01" reqNoBill state0).2.1.code)
    ∧ (createOrder mysqlInsert "2025-01-01" reqNoBill state0).1.db = state0.db :=
  ⟨by decide,
   createOrder_error_frame mysqlInsert mysqlInsert_atomic "2025-01-01" reqNoBill
     state0 (by decide)⟩

/-- C8: completion rewrites each row through completeRow, which can change
only status and completionDate, leaves any row with a different business
key or an already Complete status untouched, preserves the row count, and
neither completion nor creation ever removes a stored order. -/
theorem completeOrder_frame (now bn : String) (db : List Order) :
    ((completeOrder now bn db).1 = db.map (completeRow now bn))
    ∧ (∀ o : Order, (completeRow now bn o).billNumber = o.billNumber
        ∧ (completeRow now bn o).billDate = o.billDate
        ∧ (completeRow now bn o).deliveryDate = o.deliveryDate
        ∧ (completeRow now bn o).notes = o.notes
        ∧ (completeRow now bn o).imagePath = o.imagePath)
    ∧ (∀ o : Order, o.billNumber ≠ bn → completeRow now bn o = o)
    ∧ (∀ o : Order, o.status = Status.Complete → completeRow now bn o = o)
    ∧ ((completeOrder now bn db).1.length = db.length)
    ∧ (∀ ins : InsBehavior, Atomic ins → ∀ now2 r s, ∀ o ∈ s.db,
        o ∈ (createOrder ins now2 r s).1.db) := by
  have hdb : (completeOrder now bn db).1 = db.map (completeRow now bn) := by
    by_cases h : db.countP (eligible bn) = 0 <;>
      simp [completeOrder, completeIfEligible, h]
  refine ⟨hdb, ?_, ?_, ?_, ?_, ?_⟩
  · intro o
    unfold completeRow
    by_cases he : eligible bn o = true <;> simp [he]
  · intro o h
    apply completeRow_of_not_eligible
    simp [eligible, h]
  · intro o h
    apply completeRow_of_not_eligible
    simp [eligible, h]
  · rw [hdb]
    simp
  · intro ins hins now2 r s o ho
    rcases createOrder_db_cases ins hins now2 r s with ⟨h1, _⟩ | ⟨h1, _, _⟩
    · rw [h1]
      exact List.mem_append_left _ ho
    · rw [h1]
      exact ho

/-- Witness for C8 at a concrete single-order table. -/
theorem completeOrder_frame_witness :
    (completeOrder "2025-02-01" "B1" [orderB1]).1 =
      [orderB1].map (completeRow "2025-02-01" "B1") :=
  (completeOrder_frame "2025-02-01" "B1" [orderB1]).1

/-- Counterexample to C1: when the repository reports the duplicate key in
band, as affectedRows = 0 with nothing raised (the very path the handler
tests on src/server.js line 72), the second request with the same bill
number is answered 409 Conflict but its stored artifact is not deleted: it
remains in the artifact store after the failed attempt returns. -/
theorem createOrder_conflict_orphan_counterexample :
    ((createOrder quietDupInsert "2025-01-01" reqB100 state0).2.1 =
        CreateRes.created "B100")
    ∧ ((createOrder quietDupInsert "2025-01-02" reqB100file
          (createOrder quietDupInsert "2025-01-01" reqB100 state0).1).2.1 =
        CreateRes.conflict)
    ∧ "B100-style-99.jpg" ∈
        (createOrder quietDupInsert "2025-01-02" reqB100file
          (createOrder quietDupInsert "2025-01-01" reqB100 state0).1).1.arts := by
  decide

/-- C1 amended: of two creations with the same bill number the first
succeeds and the second fails with ConflictError; on the raising
duplicate-key path (ER_DUP_ENTRY, the path the real store takes) the
compensating delete runs and no artifact of the failed attempt remains,
while on the in-band affectedRows = 0 path the artifact is left in storage. -/
theorem createOrder_duplicate_spec (now1 now2 : String) (r1 r2 : Req)
    (s : SysState) (bn : String)
    (h1 : r1.billNumber = some bn) (h2 : r2.billNumber = some bn)
    (hbn : bn ≠ "")
    (hd1 : falsy r1.deliveryDate = false) (hd2 : falsy r2.deliveryDate = false)
    (hfresh : dupKey s.db bn = false) :
    (createOrder mysqlInsert now1 r1 s).2.1 = CreateRes.created bn
    ∧ (createOrder mysqlInsert now2 r2
        (createOrder mysqlInsert now1 r1 s).1).2.1 = CreateRes.conflict
    ∧ (∀ f, r2.file = some f →
        f ∉ (createOrder mysqlInsert now1 r1 s).1.arts →
        (createOrder mysqlInsert now2 r2
          (createOrder mysqlInsert now1 r1 s).1).1.arts =
          (createOrder mysqlInsert now1 r1 s).1.arts) := by
  have hmk1 : (mkOrder now1 r1).billNumber = bn := by simp [mkOrder, h1]
  have hmk2 : (mkOrder now2 r2).billNumber = bn := by simp [mkOrder, h2]
  have hfb : falsy (some bn) = false := by simp [falsy, hbn]
  have hv1 : (falsy r1.billNumber || falsy r1.deliveryDate) = false := by
    rw [h1, hfb, hd1]
    rfl
  have hv2 : (falsy r2.billNumber || falsy r2.deliveryDate) = false := by
    rw [h2, hfb, hd2]
    rfl
  have hdup1 : dupKey (multerStage r1 s).1.db (mkOrder now1 r1).billNumber = false := by
    rw [multerStage_db, hmk1]
    exact hfresh
  have hins1 := mysqlInsert_fresh (multerStage r1 s).1.db (mkOrder now1 r1) hdup1
  have ho1 : (mysqlInsert (multerStage r1 s).1.db (mkOrder now1 r1)).2 =
      InsertOutcome.ok (0 + 1) := by rw [hins1]
  have hstep1 := handlerStage_created mysqlInsert now1 r1 (multerStage r1 s).1 0 hv1 ho1
  have hA2 : (createOrder mysqlInsert now1 r1 s).2.1 = CreateRes.created bn := by
    rw [createOrder_eq, hstep1]
    show CreateRes.created (mkOrder now1 r1).billNumber = CreateRes.created bn
    rw [hmk1]
  have hAdb : (createOrder mysqlInsert now1 r1 s).1.db = s.db ++ [mkOrder now1 r1] := by
    rw [createOrder_eq, hstep1]
    show (mysqlInsert (multerStage r1 s).1.db (mkOrder now1 r1)).1 = s.db ++ [mkOrder now1 r1]
    rw [hins1, multerStage_db]
  have hdup2 : dupKey
      (multerStage r2 (createOrder mysqlInsert now1 r1 s).1).1.db
      (mkOrder now2 r2).billNumber = true := by
    rw [multerStage_db, hmk2, hAdb]
    simp [dupKey, hmk1]
  have hins2 := mysqlInsert_dup
    (multerStage r2 (createOrder mysqlInsert now1 r1 s).1).1.db (mkOrder now2 r2) hdup2
  have ho2 : (mysqlInsert
      (multerStage r2 (createOrder mysqlInsert now1 r1 s).1).1.db (mkOrder now2 r2)).2 =
      InsertOutcome.errDup := by rw [hins2]
  refine ⟨hA2, ?_, ?_⟩
  · cases hf2 : r2.file with
    | none =>
        rw [createOrder_eq, handlerStage_errDup_nofile mysqlInsert now2 r2
          (multerStage r2 (createOrder mysqlInsert now1 r1 s).1).1 hv2 ho2 hf2]
    | some f =>
        rw [createOrder_eq, handlerStage_errDup_file mysqlInsert now2 r2
          (multerStage r2 (createOrder mysqlInsert now1 r1 s).1).1 f hv2 ho2 hf2]
  · intro f hf2 hnm
    have harts : (multerStage r2 (createOrder mysqlInsert now1 r1 s).1).1.arts =
        (createOrder mysqlInsert now1 r1 s).1.arts ++ [f] := by
      rw [multerStage_file r2 (createOrder mysqlInsert now1 r1 s).1 f hf2]
    rw [createOrder_eq, handlerStage_errDup_file mysqlInsert now2 r2
      (multerStage r2 (createOrder mysqlInsert now1 r1 s).1).1 f hv2 ho2 hf2]
    show deleteArt (multerStage r2 (createOrder mysqlInsert now1 r1 s).1).1.arts f =
      (createOrder mysqlInsert now1 r1 s).1.arts
    rw [harts, deleteArt_append]
    exact deleteArt_of_not_mem _ _ hnm

/-- Witness for the amended C1 at a concrete pair of same-key requests. -/
theorem createOrder_duplicate_witness :
    (dupKey state0.db "B100" = false)
    ∧ (createOrder mysqlInsert "2025-01-01" reqB100 state0).2.1 =
        CreateRes.created "B100" :=
  ⟨by decide,
   (createOrder_duplicate_spec "2025-01-01" "2025-01-02" reqB100 reqB100file
      state0 "B100" rfl rfl (by decide) (by decide) (by decide) (by decide)).1⟩

/-- Counterexample to C7: for a request that fails validation while
carrying a file, an artifact IS persisted to storage: the upload intake
stores it before the handler validates anything, as both the intermediate
store content and the event order show; it is only deleted again
afterwards. -/
theorem createOrder_order_counterexample :
    ((multerStage reqNoBill state0).1.arts = ["temp-style-7.jpg"])
    ∧ ((createOrder mysqlInsert "2025-01-01" reqNoBill state0).2.1 =
        CreateRes.badRequest)
    ∧ ((createOrder mysqlInsert "2025-01-01" reqNoBill state0).2.2 =
        [Event.storeArtifact "temp-style-7.jpg", Event.validationFailed,
          Event.deleteArtifact "temp-style-7.jpg"]) := by
  decide

/-- C7 amended: the steps of a creation request run as artifact intake
first (a request with a file always begins its trace with the store event),
then validation, then the repository insert, which is attempted exactly
when validation passed; on a validation failure the artifact persisted by
the intake is deleted again, so no artifact of the attempt remains in
storage afterwards. -/
theorem createOrder_step_order (ins : InsBehavior) (now : String) (r : Req)
    (s : SysState) :
    (∀ f, r.file = some f → ∃ rest,
        (createOrder ins now r s).2.2 = Event.storeArtifact f :: rest)
    ∧ ((falsy r.billNumber || falsy r.deliveryDate) = true →
        Event.insertAttempt ∉ (createOrder ins now r s).2.2)
    ∧ ((falsy r.billNumber || falsy r.deliveryDate) = true →
        ∀ f, r.file = some f → f ∉ (createOrder ins now r s).1.arts)
    ∧ ((falsy r.billNumber || falsy r.deliveryDate) = false →
        ∃ tail, (createOrder ins now r s).2.2 =
          (multerStage r s).2 ++
            Event.validationPassed :: Event.insertAttempt :: tail) := by
  refine ⟨?_, ?_, ?_, ?_⟩
  · intro f hf
    rw [createOrder_eq, multerStage_file r s f hf]
    exact ⟨_, rfl⟩
  · intro hv
    cases hf : r.file with
    | none =>
        rw [createOrder_eq, multerStage_nofile r s hf,
          handlerStage_vfail ins now r s hv, hf]
        simp
    | some f =>
        rw [createOrder_eq, multerStage_file r s f hf,
          handlerStage_vfail ins now r _ hv, hf]
        simp
  · intro hv f hf
    rw [createOrder_eq, multerStage_file r s f hf,
      handlerStage_vfail ins now r _ hv, hf]
    exact deleteArt_not_mem _ _
  · intro hv2
    rcases ho : (ins (multerStage r s).1.db (mkOrder now r)).2 with n | _ | _
    · cases n with
      | zero =>
          rw [createOrder_eq, handlerStage_ok0 ins now r (multerStage r s).1 hv2 ho]
          exact ⟨[], rfl⟩
      | succ m =>
          rw [createOrder_eq, handlerStage_created ins now r (multerStage r s).1 m hv2 ho]
          exact ⟨[], rfl⟩
    · cases hf : r.file with
      | none =>
          rw [createOrder_eq,
            handlerStage_errDup_nofile ins now r (multerStage r s).1 hv2 ho hf]
          exact ⟨[], rfl⟩
      | some f =>
          rw [createOrder_eq,
            handlerStage_errDup_file ins now r (multerStage r s).1 f hv2 ho hf]
          exact ⟨[Event.deleteArtifact f], rfl⟩
    · cases hf : r.file with
      | none =>
          rw [createOrder_eq,
            handlerStage_errOther_nofile ins now r (multerStage r s).1 hv2 ho hf]
          exact ⟨[], rfl⟩
      | some f =>
          rw [createOrder_eq,
            handlerStage_errOther_file ins now r (multerStage r s).1 f hv2 ho hf]
          exact ⟨[Event.deleteArtifact f], rfl⟩

/-- Witness for the amended C7 at a concrete failing request: on a
validation failure no insert is ever attempted. -/
theorem createOrder_step_order_witness :
    Event.insertAttempt ∉
      (createOrder mysqlInsert "2025-01-01" reqNoBill state0).2.2 :=
  (createOrder_step_order mysqlInsert "2025-01-01" reqNoBill state0).2.1 (by decide)

/-- C3: listPending returns exactly the projections of the stored orders
whose status is Pending or InProgress and whose deliveryDate lies in the
inclusive range, with a missing bound defaulting to 2000-01-01 resp.
2100-01-01, ordered by deliveryDate ascending. -/
theorem listPending_spec (s e : Option String) (db : List Order) :
    (listPending s e db).Pairwise
      (fun a b => strLe a.deliveryDate b.deliveryDate = true)
    ∧ List.Perm (listPending s e db)
        ((db.filter (pendingPred (orDefault s "2000-01-01")
            (orDefault e "2100-01-01"))).map projPending)
    ∧ (∀ p, p ∈ listPending s e db ↔ ∃ o ∈ db,
        (o.status = Status.Pending ∨ o.status = Status.InProgress)
        ∧ strLe (orDefault s "2000-01-01") o.deliveryDate = true
        ∧ strLe o.deliveryDate (orDefault e "2100-01-01") = true
        ∧ p = projPending o)
    ∧ listPending none none db = listPendingQ "2000-01-01" "2100-01-01" db := by
  have htrans : ∀ a b c : Order, byDelivery a b → byDelivery b c → byDelivery a c := by
    intro a b c hab hbc
    exact strLe_trans _ _ _ hab hbc
  have htotal : ∀ a b : Order, byDelivery a b || byDelivery b a := by
    intro a b
    exact strLe_total _ _
  have hpred : ∀ s2 e2 : String, ∀ o : Order, pendingPred s2 e2 o = true ↔
      (o.status = Status.Pending ∨ o.status = Status.InProgress)
      ∧ strLe s2 o.deliveryDate = true ∧ strLe o.deliveryDate e2 = true := by
    intro s2 e2 o
    simp [pendingPred]
  refine ⟨?_, ?_, ?_, rfl⟩
  · exact List.Pairwise.map projPending (fun a b hab => hab)
      (List.sorted_mergeSort htrans htotal _)
  · exact List.Perm.map projPending (List.mergeSort_perm _ _)
  · intro p
    constructor
    · intro hp
      obtain ⟨o, ho, rfl⟩ := List.mem_map.mp hp
      rw [List.mem_mergeSort] at ho
      obtain ⟨hod, hp2⟩ := List.mem_filter.mp ho
      obtain ⟨hst, hs2, he2⟩ := (hpred _ _ o).mp hp2
      exact ⟨o, hod, hst, hs2, he2, rfl⟩
    · rintro ⟨o, ho, hst, hs2, he2, rfl⟩
      apply List.mem_map.mpr
      refine ⟨o, ?_, rfl⟩
      rw [List.mem_mergeSort]
      exact List.mem_filter.mpr ⟨ho, (hpred _ _ o).mpr ⟨hst, hs2, he2⟩⟩

/-- Witness for C3 at a concrete table: both omitted bounds default. -/
theorem listPending_spec_witness :
    listPending none none [orderB1] =
      listPendingQ "2000-01-01" "2100-01-01" [orderB1] :=
  (listPending_spec none none [orderB1]).2.2.2

/-- C5: listAll returns a projection of every stored order regardless of
status, ordered by bill number descending, and every successfully created
order is visible in it. -/
theorem listAll_spec (db : List Order) :
    (listAll db).Pairwise (fun a b => strLe b.billNumber a.billNumber = true)
    ∧ List.Perm (listAll db) (db.map projAll)
    ∧ (∀ o ∈ db, projAll o ∈ listAll db)
    ∧ (∀ ins : InsBehavior, Atomic ins → ∀ now r s,
        (createOrder ins now r s).2.1 =
          CreateRes.created (mkOrder now r).billNumber →
        projAll (mkOrder now r) ∈ listAll (createOrder ins now r s).1.db) := by
  have htrans : ∀ a b c : Order, byBillDesc a b → byBillDesc b c → byBillDesc a c := by
    intro a b c hab hbc
    exact strLe_trans _ _ _ hbc hab
  have htotal : ∀ a b : Order, byBillDesc a b || byBillDesc b a := by
    intro a b
    exact strLe_total _ _
  refine ⟨?_, ?_, ?_, ?_⟩
  · exact List.Pairwise.map projAll (fun a b hab => hab)
      (List.sorted_mergeSort htrans htotal _)
  · exact List.Perm.map projAll (List.mergeSort_perm _ _)
  · intro o ho
    exact List.mem_map.mpr ⟨o, List.mem_mergeSort.mpr ho, rfl⟩
  · intro ins hins now r s hsucc
    rcases createOrder_db_cases ins hins now r s with ⟨h1, _⟩ | ⟨_, hne, _⟩
    · rw [h1]
      exact List.mem_map.mpr ⟨mkOrder now r,
        List.mem_mergeSort.mpr (List.mem_append_right _ (List.mem_singleton.mpr rfl)), rfl⟩
    · exact absurd hsucc hne

/-- Witness for C5: a stored order is visible in the full listing. -/
theorem listAll_spec_witness : projAll orderB1 ∈ listAll [orderB1] :=
  (listAll_spec [orderB1]).2.2.1 orderB1 (List.mem_singleton.mpr rfl)

/-- C10: startup acquires the store connection exactly once and before
anything else; the listener starts exactly when that connection succeeded,
so after a failed startup connection the process never accepts requests. -/
theorem startup_spec (connOk : Bool) :
    ((startupTrace connOk).head? = some StartEvent.getConnection)
    ∧ ((startupTrace connOk).count StartEvent.getConnection = 1)
    ∧ (StartEvent.listen ∈ startupTrace connOk ↔ connOk = true)
    ∧ (connOk = false → StartEvent.listen ∉ startupTrace connOk) := by
  cases connOk <;> exact ⟨rfl, by decide, by decide, by decide⟩

/-- Witness for C10: after a failed startup connection the listener never
starts. -/
theorem startup_spec_witness : StartEvent.listen ∉ startupTrace false :=
  (startup_spec false).2.2.2 rfl

end Tailor
